import Mathlib

/-!
Verification development for the Redis-stream worker of the helios-ai
repository (`app/worker/stream_worker.py`, `app/metrics.py`, `main.py`).

The worker's per-entry task, its requeue / dead-letter helpers, the ack
batcher, the concurrency gate and the metrics registry are shallowly
embedded as pure Lean functions.  Stateful Python code becomes explicit
state passing; the Redis calls and metric updates performed by a task are
recorded in order as an `WAction` trace, so that ordering properties
(dead-letter before acknowledge, ack inside or outside the lock, ...)
become properties of the produced list.
-/

/-- A flat string-to-string field map, as carried by stream entries
(Python `Dict[str, str]`, insertion ordered, assignment updates in place). -/
abbrev Fields := List (String × String)

/-- `fields.get(k, d)` of a Python dict: first binding of `k`, else `d`. -/
def fget (fs : Fields) (k d : String) : String :=
  match fs with
  | [] => d
  | p :: rest => if p.1 = k then p.2 else fget rest k d

/-- `fields[k] = v` of a Python dict: replace the first binding of `k`
in place, or append a new binding at the end. -/
def fset (fs : Fields) (k v : String) : Fields :=
  match fs with
  | [] => [(k, v)]
  | p :: rest => if p.1 = k then (k, v) :: rest else p :: fset rest k v

/-- Digit run to a natural number, most significant first. -/
def natOfDigits : List Char → Nat → Nat
  | [], acc => acc
  | c :: rest, acc => natOfDigits rest (acc * 10 + (c.toNat - 48))

/-- Python `int(s)` on the plain decimal strings the worker exchanges:
an optional minus sign followed by at least one digit parses, anything
else raises (`none`). -/
def parseIntPy (s : String) : Option Int :=
  match s.data with
  | [] => none
  | '-' :: rest =>
      if rest ≠ [] ∧ rest.all (fun c => c.isDigit) then
        some (-(natOfDigits rest 0 : Int))
      else none
  | l =>
      if l.all (fun c => c.isDigit) then some ((natOfDigits l 0 : Int))
      else none

/-- One observable side effect of a worker task, in execution order:
metric increments/decrements, `XADD` appends, scheduled `XACK`s, and the
invocation of the preprocess adapter.  `xaddFailed` records an `XADD`
that was attempted but raised — it appends nothing to the stream; the
caller that swallows the exception continues as if nothing happened. -/
inductive WAction
  | incr (name : String)
  | decr (name : String)
  | xadd (stream : String) (fields : Fields)
  | xaddFailed (stream : String) (fields : Fields)
  | scheduleAck (stream : String) (msgId : String)
  | adapterCall (hlsUrl : String) (sec : Int)
deriving DecidableEq

/-- The settings the per-entry task consults: `settings.REDIS_MAX_RETRY`
(default 3) and `settings.REDIS_DLQ_STREAM` (default "stream:preprocess:dlq"). -/
structure Config where
  maxRetry : Int
  dlqStream : String
deriving DecidableEq

/-- The structured value returned by
`preprocess_adapter.run_preprocess_from_hls`: the worker reads
`result["meta"]["processing_status"]` (default "unknown"),
`result["meta"]["hls_accessible"]` (default True),
`result["meta"]["hls_connection_error"]` and `result["temp_dir"]`. -/
structure AdapterReturn where
  status : String
  hlsAccessible : Bool
  hlsError : String
deriving DecidableEq

/-- Outcome of the adapter invocation: a structured return value, or a
raised exception carrying its message. -/
inductive AdapterOutcome
  | ok (r : AdapterReturn)
  | raises (msg : String)
deriving DecidableEq

/-- `StreamWorker._requeue_message`: mutate the entry's field map with
`attempt := attempt + 1`, `last_error := error`, `retry_at := now`. -/
def requeueFields (fields : Fields) (attempt : Int) (error : String) (now : Int) : Fields :=
  fset (fset (fset fields "attempt" (toString (attempt + 1))) "last_error" error)
    "retry_at" (toString now)

/-- Effects of `StreamWorker._requeue_message`: `XADD` the mutated field
map back onto the source stream and increment the `retried` counter. -/
def requeueActions (stream : String) (fields : Fields) (attempt : Int)
    (error : String) (now : Int) : List WAction :=
  [WAction.xadd stream (requeueFields fields attempt error now), WAction.incr "retried"]

/-- `StreamWorker._move_to_dlq`: mutate the entry's field map with
`final_error := error`, `dlq_at := now`. -/
def dlqFields (fields : Fields) (error : String) (now : Int) : Fields :=
  fset (fset fields "final_error" error) "dlq_at" (toString now)

/-- Effects of `StreamWorker._move_to_dlq` (lines 296-309), including
its `except` path: inside a `try`, the field map is augmented
(`final_error`, `dlq_at`), `XADD`ed onto the dead-letter stream, and the
`dlq` counter incremented; any exception — in particular a failing
`XADD` — is swallowed (only logged) and the method returns normally, so
a failed append leaves no DLQ entry and no `dlq` increment.  `dlqOk`
says whether the `XADD` succeeds. -/
def move_to_dlq (cfg : Config) (fields : Fields) (error : String) (now : Int)
    (dlqOk : Bool) : List WAction :=
  if dlqOk then
    [WAction.xadd cfg.dlqStream (dlqFields fields error now), WAction.incr "dlq"]
  else
    [WAction.xaddFailed cfg.dlqStream (dlqFields fields error now)]

/-- The status-driven metric update of `_process_message` (lines
239-248): the statuses `success`, `partial_success` and
`failed_hls_connection` each increment `processed`, any other status
updates nothing. -/
def procActsOf (r : AdapterReturn) : List WAction :=
  if r.status = "success" ∨ r.status = "partial_success" ∨
      r.status = "failed_hls_connection" then
    [WAction.incr "processed"]
  else []

/-- The `try` block of `StreamWorker._process_message`
(stream_worker.py lines 138-250): parse `sec` and `attempt` (either may
raise `ValueError`), reject an empty `hls` URL, consult the GPU memory
guard (its boolean verdict is the `guardOk` input; insufficient memory
requeues via `_requeue_message` and returns), invoke the adapter
(`adapter` is its outcome), handle an inaccessible HLS source by
requeueing while `attempt < 3`, then count `processed` for the statuses
`success` / `partial_success` / `failed_hls_connection` and schedule the
acknowledgment.  The Swift upload and temp-dir cleanup are filesystem
collaborators whose exceptions the code catches locally; they produce no
modelled effect.  Returns the effects performed in the `try` block plus
the message of the exception escaping it, if any. -/
def tryBody (guardOk : Bool) (adapter : AdapterOutcome)
    (stream msgId : String) (fields : Fields) (now : Int) :
    List WAction × Option String :=
  match parseIntPy (fget fields "sec" "20") with
  | none => ([], some "invalid literal for int() with base 10: sec")
  | some sec =>
  match parseIntPy (fget fields "attempt" "0") with
  | none => ([], some "invalid literal for int() with base 10: attempt")
  | some attempt =>
  if fget fields "hls" "" = "" then
    ([], some "HLS URL이 비어있습니다")
  else if guardOk = false then
    (requeueActions stream fields attempt "GPU 메모리 부족" now, none)
  else
    match adapter with
    | AdapterOutcome.raises msg =>
        ([WAction.adapterCall (fget fields "hls" "") sec], some msg)
    | AdapterOutcome.ok r =>
        let pre := [WAction.adapterCall (fget fields "hls" "") sec]
        if r.hlsAccessible = false ∧ attempt < 3 then
          (pre ++ requeueActions stream fields attempt
            ("HLS 연결 실패: " ++ r.hlsError) now, none)
        else
          (pre ++ procActsOf r ++ [WAction.scheduleAck stream msgId], none)

/-- `StreamWorker._process_message` in full: increment
`concurrency_current`, run the `try` block, and on an escaping exception
run the `except` handler (increment `failed`, re-parse `attempt` — a
re-parse that itself raises escapes the task —, then either requeue when
`attempt < settings.REDIS_MAX_RETRY` or call `_move_to_dlq` and schedule
the acknowledgment of the original — `_move_to_dlq` swallows its own
failures, so the acknowledgment is scheduled whether or not the DLQ
append succeeded, which `dlqOk` controls), finally decrement
`concurrency_current`.  Returns the ordered effect trace and the message
of an exception escaping the whole task, if any. -/
def process_message_dlq (cfg : Config) (guardOk : Bool) (adapter : AdapterOutcome)
    (stream msgId : String) (fields : Fields) (now : Int) (dlqOk : Bool) :
    List WAction × Option String :=
  let pre := [WAction.incr "concurrency_current"]
  let fin := [WAction.decr "concurrency_current"]
  match tryBody guardOk adapter stream msgId fields now with
  | (acts, none) => (pre ++ acts ++ fin, none)
  | (acts, some e) =>
    let h1 := [WAction.incr "failed"]
    match parseIntPy (fget fields "attempt" "0") with
    | none =>
        (pre ++ acts ++ h1 ++ fin,
         some "invalid literal for int() with base 10: attempt")
    | some attempt =>
      if attempt < cfg.maxRetry then
        (pre ++ acts ++ h1 ++ requeueActions stream fields attempt e now ++ fin, none)
      else
        (pre ++ acts ++ h1 ++ move_to_dlq cfg fields e now dlqOk ++
          [WAction.scheduleAck stream msgId] ++ fin, none)

/-- `StreamWorker._process_message` in the environment where the
log-client calls succeed: the `dlqOk = true` instance of
`process_message_dlq`. -/
def process_message (cfg : Config) (guardOk : Bool) (adapter : AdapterOutcome)
    (stream msgId : String) (fields : Fields) (now : Int) :
    List WAction × Option String :=
  process_message_dlq cfg guardOk adapter stream msgId fields now true

/-! ## Ack batcher (`_schedule_ack`, `_flush_acks`) -/

/-- The per-partition ack buffers: `self._ack_buffers`, a
`DefaultDict[str, List[str]]` in insertion order. -/
abbrev AckBufs := List (String × List String)

/-- Lock/IO events of the ack batcher: taking and releasing
`self._ack_lock`, and an underlying `XACK` call carrying the identifiers
it covers and whether it succeeded. -/
inductive AckEv
  | acquire
  | ackCall (stream : String) (ids : List String) (ok : Bool)
  | release
deriving DecidableEq

/-- `self._ack_buffers[stream].append(message_id)` on a defaultdict:
append under an existing key, else create the key with a one-element
list. -/
def bufAppend : AckBufs → String → String → AckBufs
  | [], s, m => [(s, [m])]
  | p :: rest, s, m =>
      if p.1 = s then (p.1, p.2 ++ [m]) :: rest else p :: bufAppend rest s m

/-- `StreamWorker._schedule_ack`: with batching disabled, an immediate
`XACK` of the single identifier (the buffers untouched); with batching
enabled, append the identifier under its stream while holding the lock. -/
def schedule_ack (batchEnabled : Bool) (ackOk : String → Bool)
    (bufs : AckBufs) (stream msgId : String) : List AckEv × AckBufs :=
  if batchEnabled = false then
    ([AckEv.ackCall stream [msgId] (ackOk stream)], bufs)
  else
    ([], bufAppend bufs stream msgId)

/-- `StreamWorker._flush_acks`: with batching disabled, nothing; with
batching enabled, take `self._ack_lock` and, still holding it, for every
stream with a non-empty buffer copy the list, clear the buffer, and
issue one `XACK` covering the copied identifiers (a failing `XACK` is
logged, the identifiers are not put back), then release the lock.
`ackOk` says which streams' `XACK` succeeds.  Returns the lock/IO events
in order and the buffers afterwards. -/
def flush_acks (batchEnabled : Bool) (ackOk : String → Bool)
    (bufs : AckBufs) : List AckEv × AckBufs :=
  if batchEnabled = false then
    ([], bufs)
  else
    (AckEv.acquire ::
      ((bufs.filter (fun p => ¬ p.2.isEmpty)).map
        (fun p => AckEv.ackCall p.1 p.2 (ackOk p.1))) ++ [AckEv.release],
     bufs.map (fun p => (p.1, ([] : List String))))

/-! ## Concurrency gate (`asyncio.Semaphore`, `update_concurrency`) -/

/-- The worker's concurrency gate.  `gen` identifies the current
`asyncio.Semaphore` object (`update_concurrency` replaces it with a
fresh one), `capacity` its size, and `active` the tasks currently inside
`_process_message`'s `async with self.semaphore` block, each tagged with
the generation of the semaphore object whose permit it holds. -/
structure WorkerGate where
  gen : Nat
  capacity : Nat
  active : List (Nat × Nat)
deriving DecidableEq

/-- Number of permits of the *current* semaphore object that are taken:
tasks holding a permit of an older, replaced semaphore do not count. -/
def currentCount (s : WorkerGate) : Nat :=
  (s.active.filter (fun p => p.2 = s.gen)).length

/-- `StreamWorker.update_concurrency`: clamp values below 1 up to 1,
record the new value and replace the semaphore with a fresh one of the
new size; tasks inside the old gate are untouched. -/
def worker_update_concurrency (s : WorkerGate) (n : Int) : WorkerGate :=
  { gen := s.gen + 1,
    capacity := (if n < 1 then 1 else n).toNat,
    active := s.active }

/-- The `/control/concurrency` endpoint of `main.py`: an integer outside
`1..10` is rejected with HTTP status 400, anything else is handed to
`worker.update_concurrency`. -/
def update_concurrency_api (n : Int) (s : WorkerGate) : Except Nat WorkerGate :=
  if n < 1 ∨ n > 10 then Except.error 400
  else Except.ok (worker_update_concurrency s n)

/-- An interleaving event of the dispatched tasks: a task entering
per-entry processing (acquiring the current semaphore), a task leaving
it (releasing the permit it holds), or a runtime concurrency update. -/
inductive GStep
  | start (tid : Nat)
  | finish (tid : Nat)
  | update (n : Int)
deriving DecidableEq

/-- One scheduler step.  A `start` is enabled only when the task is not
already active and the current semaphore has a free permit
(`currentCount < capacity`); a `finish` is enabled only for an active
task and releases whatever permit it holds; an `update` is always
enabled and replaces the semaphore. -/
def gstep (s : WorkerGate) : GStep → Option WorkerGate
  | GStep.start tid =>
      if s.active.any (fun p => p.1 = tid) then none
      else if currentCount s < s.capacity then
        some { s with active := (tid, s.gen) :: s.active }
      else none
  | GStep.finish tid =>
      if s.active.any (fun p => p.1 = tid) then
        some { s with active := s.active.filter (fun p => p.1 ≠ tid) }
      else none
  | GStep.update n => some (worker_update_concurrency s n)

/-- Run a sequence of scheduler steps; `none` when some step was not
enabled. -/
def foldGate (s : WorkerGate) : List GStep → Option WorkerGate
  | [] => some s
  | e :: rest =>
      match gstep s e with
      | some s2 => foldGate s2 rest
      | none => none

/-- `true` when no event of the trace is a concurrency update. -/
def noUpdate (evs : List GStep) : Bool :=
  evs.all (fun e => match e with | GStep.update _ => false | _ => true)

/-! ## Counter registry (`app/metrics.py`) -/

/-- The counter registry state: name-to-value bindings in insertion
order (`self._counters`). -/
abbrev Counters := List (String × Int)

/-- The registry as built by `Metrics.__init__`. -/
def initCounters : Counters :=
  [("processed", 0), ("failed", 0), ("retried", 0),
   ("dlq", 0), ("pending", 0), ("concurrency_current", 0)]

/-- `if counter in self._counters: self._counters[counter] = f(...)`:
update the value under a present name, silently do nothing for an
absent one. -/
def mupdate (cs : Counters) (name : String) (f : Int → Int) : Counters :=
  if cs.any (fun p => p.1 = name) then
    cs.map (fun p => if p.1 = name then (p.1, f p.2) else p)
  else cs

/-- One call on the `Metrics` singleton. -/
inductive MOp
  | inc (name : String) (v : Int)
  | dec (name : String) (v : Int)
  | setTo (name : String) (v : Int)
  | reset
deriving DecidableEq

/-- Apply one `Metrics` call: `increment` adds, `decrement` subtracts
clamping at zero (`max(0, ...)`), `set` overwrites, `reset` zeroes every
counter except `concurrency_current`. -/
def mapply (cs : Counters) : MOp → Counters
  | MOp.inc name v => mupdate cs name (fun x => x + v)
  | MOp.dec name v => mupdate cs name (fun x => max 0 (x - v))
  | MOp.setTo name v => mupdate cs name (fun _ => v)
  | MOp.reset =>
      cs.map (fun p => if p.1 = "concurrency_current" then p else (p.1, 0))

/-- An operation the claim allows: `increment` with a non-negative
amount, `set` with a non-negative value, any `decrement` or `reset`. -/
def opNonneg : MOp → Bool
  | MOp.inc _ v => decide (0 ≤ v)
  | MOp.dec _ _ => true
  | MOp.setTo _ v => decide (0 ≤ v)
  | MOp.reset => true

/-- The names bound in a counter registry state, in order. -/
def keysOf (cs : Counters) : List String := cs.map Prod.fst

/-! ## Helper lemmas -/

theorem fget_fset_self (fs : Fields) (k v d : String) : fget (fset fs k v) k d = v := by
  induction fs with
  | nil => simp [fset, fget]
  | cons p rest ih =>
    by_cases h : p.1 = k
    · simp [fset, h, fget]
    · simp [fset, h, fget, ih]

theorem fget_fset_other (fs : Fields) (k v k2 d : String) (h : k2 ≠ k) :
    fget (fset fs k v) k2 d = fget fs k2 d := by
  have h1 : ¬ (k = k2) := fun hh => h hh.symm
  induction fs with
  | nil => simp [fset, fget, h1]
  | cons p rest ih =>
    by_cases hp : p.1 = k
    · have hpk2 : ¬ (p.1 = k2) := by rw [hp]; exact h1
      simp [fset, hp, fget, h1, hpk2]
    · simp only [fset, if_neg hp]
      by_cases hq : p.1 = k2
      · simp [fget, hq]
      · simp [fget, hq, ih]

/-- The requeued copy built by `_requeue_message` carries `attempt`
exactly one greater than the attempt it was given. -/
theorem requeueFields_attempt (fields : Fields) (attempt : Int) (e : String) (now : Int) :
    fget (requeueFields fields attempt e now) "attempt" "" = toString (attempt + 1) := by
  unfold requeueFields
  rw [fget_fset_other _ _ _ _ _ (by decide),
    fget_fset_other _ _ _ _ _ (by decide), fget_fset_self]

/-- When the `try` block of `_process_message` raises, the only effect
it can have already performed is the adapter invocation. -/
theorem tryBody_error_shape (g : Bool) (ad : AdapterOutcome) (stream msgId : String)
    (fs : Fields) (now : Int) (e : String)
    (h : (tryBody g ad stream msgId fs now).2 = some e) :
    ∀ a ∈ (tryBody g ad stream msgId fs now).1, ∃ u s, a = WAction.adapterCall u s := by
  intro a ha
  unfold tryBody at h ha
  repeat' split at h
  all_goals simp_all [requeueActions]

/-- Every `XADD` performed inside the `try` block of `_process_message`
targets the entry's own stream (it is a requeue, never a DLQ write). -/
theorem tryBody_xadd_stream (g : Bool) (ad : AdapterOutcome) (stream msgId : String)
    (fs : Fields) (now : Int) (st : String) (f : Fields)
    (h : WAction.xadd st f ∈ (tryBody g ad stream msgId fs now).1) :
    st = stream := by
  unfold tryBody at h
  repeat' split at h
  all_goals simp_all [requeueActions, procActsOf]

/-- Shape of `_process_message` when the `try` block raises, `attempt`
re-parses, and the retry budget is not yet exhausted: the handler
requeues and does not acknowledge. -/
theorem process_message_error_requeue (cfg : Config) (g : Bool) (ad : AdapterOutcome)
    (stream msgId : String) (fields : Fields) (now : Int) (e : String) (a : Int)
    (htb : (tryBody g ad stream msgId fields now).2 = some e)
    (hp : parseIntPy (fget fields "attempt" "0") = some a)
    (hlt : a < cfg.maxRetry) :
    process_message cfg g ad stream msgId fields now =
      ([WAction.incr "concurrency_current"] ++ (tryBody g ad stream msgId fields now).1 ++
        [WAction.incr "failed"] ++ requeueActions stream fields a e now ++
        [WAction.decr "concurrency_current"], none) := by
  unfold process_message process_message_dlq
  rcases he : tryBody g ad stream msgId fields now with ⟨acts, o⟩
  rw [he] at htb
  simp at htb
  subst htb
  simp [hp, hlt, he]

/-- Shape of `_process_message` when the `try` block raises, `attempt`
re-parses, and the retry budget is exhausted: the handler calls
`_move_to_dlq` (whose append succeeds iff `dlqOk`) and then schedules
the acknowledgment of the original either way. -/
theorem process_message_error_dlq (cfg : Config) (g : Bool) (ad : AdapterOutcome)
    (stream msgId : String) (fields : Fields) (now : Int) (e : String) (a : Int)
    (dlqOk : Bool)
    (htb : (tryBody g ad stream msgId fields now).2 = some e)
    (hp : parseIntPy (fget fields "attempt" "0") = some a)
    (hge : cfg.maxRetry ≤ a) :
    process_message_dlq cfg g ad stream msgId fields now dlqOk =
      ([WAction.incr "concurrency_current"] ++ (tryBody g ad stream msgId fields now).1 ++
        [WAction.incr "failed"] ++ move_to_dlq cfg fields e now dlqOk ++
        [WAction.scheduleAck stream msgId] ++
        [WAction.decr "concurrency_current"], none) := by
  unfold process_message_dlq
  rcases he : tryBody g ad stream msgId fields now with ⟨acts, o⟩
  rw [he] at htb
  simp at htb
  subst htb
  simp [hp, not_lt.mpr hge, he]

/-! ## Gate lemmas -/

/-- The invariant of the gate while no concurrency update happens: the
original semaphore (generation 0) of size `k` is in place, every active
task holds one of its permits, at most `k` tasks are active, and no
task is active twice. -/
def GateInv (k : Nat) (s : WorkerGate) : Prop :=
  s.gen = 0 ∧ s.capacity = k ∧ (∀ p ∈ s.active, p.2 = 0) ∧
  s.active.length ≤ k ∧ (s.active.map Prod.fst).Nodup

theorem filter_eq_self_len (l : List (Nat × Nat)) (g : Nat) (h : ∀ p ∈ l, p.2 = g) :
    (l.filter (fun p => p.2 = g)).length = l.length := by
  induction l with
  | nil => rfl
  | cons p rest ih =>
    rw [List.filter_cons]
    simp [h p (by simp), ih (fun q hq => h q (by simp [hq]))]

theorem filter_ne_of_not_mem (l : List (Nat × Nat)) (tid : Nat)
    (h : tid ∉ l.map Prod.fst) : l.filter (fun p => p.1 ≠ tid) = l := by
  apply List.filter_eq_self.mpr
  intro a ha
  have hne : a.1 ≠ tid := fun heq => h (heq ▸ List.mem_map_of_mem Prod.fst ha)
  simp [hne]

theorem filter_ne_length (l : List (Nat × Nat)) (tid : Nat)
    (hm : tid ∈ l.map Prod.fst) (hnd : (l.map Prod.fst).Nodup) :
    (l.filter (fun p => p.1 ≠ tid)).length + 1 = l.length := by
  induction l with
  | nil => simp at hm
  | cons p rest ih =>
    simp only [List.map_cons, List.nodup_cons] at hnd
    simp only [List.map_cons, List.mem_cons] at hm
    by_cases h1 : p.1 = tid
    · have hrest : tid ∉ List.map Prod.fst rest := h1 ▸ hnd.1
      rw [List.filter_cons]
      split
      · next hcond => exact absurd h1 (by simpa using hcond)
      · rw [filter_ne_of_not_mem rest tid hrest]
        simp
    · have hmem : tid ∈ List.map Prod.fst rest := by
        rcases hm with hh | hh
        · exact absurd hh.symm h1
        · exact hh
      rw [List.filter_cons]
      split
      · have hih := ih hmem hnd.2
        simp only [List.length_cons]
        omega
      · next hcond => exact absurd (by simp [h1]) hcond

theorem currentCount_of_all_gen (s : WorkerGate) (h : ∀ p ∈ s.active, p.2 = s.gen) :
    currentCount s = s.active.length :=
  filter_eq_self_len s.active s.gen h

/-- A single `start` or `finish` step preserves the gate invariant. -/
theorem gstep_inv (k : Nat) (s s2 : WorkerGate) (e : GStep)
    (hno : noUpdate [e] = true) (hinv : GateInv k s) (h : gstep s e = some s2) :
    GateInv k s2 := by
  obtain ⟨hg, hc, hall, hlen, hnd⟩ := hinv
  cases e with
  | start tid =>
    unfold gstep at h
    by_cases hany : s.active.any (fun p => p.1 = tid)
    · simp [hany] at h
    · have hcc : currentCount s = s.active.length :=
        currentCount_of_all_gen s (fun p hp => by rw [hall p hp, hg])
      by_cases hlt : currentCount s < s.capacity
      · simp only [hany, Bool.false_eq_true, if_false, hlt, if_true, Option.some.injEq] at h
        subst h
        refine ⟨hg, hc, ?_, ?_, ?_⟩
        · intro p hp
          rcases List.mem_cons.mp hp with h1 | h2
          · rw [h1, hg]
          · exact hall p h2
        · simp only [List.length_cons]
          rw [hcc, hc] at hlt
          omega
        · simp only [List.map_cons, List.nodup_cons]
          refine ⟨?_, hnd⟩
          intro hmem
          rcases List.mem_map.mp hmem with ⟨q, hq, hq2⟩
          simp only [Bool.not_eq_true, List.any_eq_false, decide_eq_true_eq] at hany
          exact hany q hq hq2
      · simp [hany, hlt] at h
  | finish tid =>
    unfold gstep at h
    by_cases hany : s.active.any (fun p => p.1 = tid)
    · simp only [hany, if_true, Option.some.injEq] at h
      subst h
      refine ⟨hg, hc, ?_, ?_, ?_⟩
      · intro p hp
        exact hall p (List.mem_of_mem_filter hp)
      · exact le_trans (List.length_filter_le _ _) hlen
      · exact hnd.sublist (List.Sublist.map Prod.fst (List.filter_sublist _))
    · simp [hany] at h
  | update n => simp [noUpdate] at hno

/-- Every trace of starts and finishes keeps the gate invariant. -/
theorem foldGate_inv (k : Nat) (evs : List GStep) (s s2 : WorkerGate)
    (hno : noUpdate evs = true) (hinv : GateInv k s) (h : foldGate s evs = some s2) :
    GateInv k s2 := by
  induction evs generalizing s with
  | nil =>
    unfold foldGate at h
    simp only [Option.some.injEq] at h
    exact h ▸ hinv
  | cons e rest ih =>
    unfold foldGate at h
    rcases he : gstep s e with _ | s3
    · rw [he] at h; simp at h
    · rw [he] at h
      simp only [noUpdate, List.all_cons, Bool.and_eq_true] at hno
      have hno1 : noUpdate [e] = true := by
        simp [noUpdate, List.all_cons, hno.1]
      have hno2 : noUpdate rest = true := hno.2
      exact ih s3 hno2 (gstep_inv k s s3 e hno1 hinv he) h

/-- Equation for an admitted `start` step. -/
theorem gstep_start_eq (s : WorkerGate) (tid : Nat)
    (h1 : (s.active.any (fun p => p.1 = tid)) = false)
    (h2 : currentCount s < s.capacity) :
    gstep s (GStep.start tid) = some { s with active := (tid, s.gen) :: s.active } := by
  show (if (s.active.any fun p => p.1 = tid) = true then none
        else if currentCount s < s.capacity then
          some ({ s with active := (tid, s.gen) :: s.active } : WorkerGate)
        else none) = some ({ s with active := (tid, s.gen) :: s.active } : WorkerGate)
  rw [h1]
  simp [h2]

/-- Equation for an enabled `finish` step. -/
theorem gstep_finish_eq (s : WorkerGate) (tid : Nat)
    (h1 : (s.active.any (fun p => p.1 = tid)) = true) :
    gstep s (GStep.finish tid) = some { s with active := s.active.filter (fun p => p.1 ≠ tid) } := by
  show (if (s.active.any fun p => p.1 = tid) = true then
          some ({ s with active := s.active.filter (fun p => p.1 ≠ tid) } : WorkerGate)
        else none) = some ({ s with active := s.active.filter (fun p => p.1 ≠ tid) } : WorkerGate)
  rw [h1]
  simp

/-- A `start` is never admitted while `k` tasks are active. -/
theorem start_blocked (k : Nat) (s : WorkerGate) (hinv : GateInv k s)
    (hfull : s.active.length = k) (tid : Nat) :
    gstep s (GStep.start tid) = none := by
  obtain ⟨hg, hc, hall, _, _⟩ := hinv
  unfold gstep
  by_cases hany : s.active.any (fun p => p.1 = tid)
  · simp [hany]
  · have hcc : currentCount s = s.active.length :=
      currentCount_of_all_gen s (fun p hp => by rw [hall p hp, hg])
    have : ¬ (currentCount s < s.capacity) := by
      rw [hcc, hfull, hc]
      omega
    simp [hany, this]

/-! ## Claims -/

/-- C1 counterexample: at a permanently failing entry (adapter raises,
`attempt = 3 >= maxRetry`) whose DLQ `XADD` fails, `_move_to_dlq`
swallows the failure and `_process_message` still schedules the `XACK`
of the original: the trace acknowledges the entry although no append to
any stream happened — the entry is lost, refuting "acknowledged only
having reached the dead-letter partition". -/
theorem C1_lost_entry_cex :
    process_message_dlq ⟨3, "stream:preprocess:dlq"⟩ true (AdapterOutcome.raises "boom")
        "jobs" "m4" [("hls", "http://x/a.m3u8"), ("attempt", "3")] 1000 false =
      ([WAction.incr "concurrency_current",
        WAction.adapterCall "http://x/a.m3u8" 20,
        WAction.incr "failed",
        WAction.xaddFailed "stream:preprocess:dlq"
          [("hls", "http://x/a.m3u8"), ("attempt", "3"),
           ("final_error", "boom"), ("dlq_at", "1000")],
        WAction.scheduleAck "jobs" "m4",
        WAction.decr "concurrency_current"], none) ∧
    WAction.scheduleAck "jobs" "m4" ∈
      (process_message_dlq ⟨3, "stream:preprocess:dlq"⟩ true (AdapterOutcome.raises "boom")
        "jobs" "m4" [("hls", "http://x/a.m3u8"), ("attempt", "3")] 1000 false).1 ∧
    (∀ st f, WAction.xadd st f ∉
      (process_message_dlq ⟨3, "stream:preprocess:dlq"⟩ true (AdapterOutcome.raises "boom")
        "jobs" "m4" [("hls", "http://x/a.m3u8"), ("attempt", "3")] 1000 false).1) := by
  have h : process_message_dlq ⟨3, "stream:preprocess:dlq"⟩ true (AdapterOutcome.raises "boom")
      "jobs" "m4" [("hls", "http://x/a.m3u8"), ("attempt", "3")] 1000 false =
      ([WAction.incr "concurrency_current",
        WAction.adapterCall "http://x/a.m3u8" 20,
        WAction.incr "failed",
        WAction.xaddFailed "stream:preprocess:dlq"
          [("hls", "http://x/a.m3u8"), ("attempt", "3"),
           ("final_error", "boom"), ("dlq_at", "1000")],
        WAction.scheduleAck "jobs" "m4",
        WAction.decr "concurrency_current"], none) := by decide
  refine ⟨h, by decide, ?_⟩
  intro st f hf
  rw [h] at hf
  simp at hf

/-- C1 amended: for every entry whose processing fails with
`attempt >= maxRetry`, the worker *attempts* to append the entry — with
`final_error` set and every original field intact — to the dead-letter
partition before the acknowledgment of the original is scheduled.  When
the DLQ append succeeds, the entry reaches the dead-letter partition
strictly before the acknowledgment and no acknowledgment precedes it.
But `_move_to_dlq` swallows its own failures, so when the DLQ append
fails the original is acknowledged anyway while no entry reached any
stream: a permanently failing entry can be acknowledged without having
reached the dead-letter partition and is then lost. -/
theorem C1_dead_letter_attempt_then_ack (cfg : Config) (g : Bool) (ad : AdapterOutcome)
    (stream msgId : String) (fields : Fields) (now : Int) (e : String) (a : Int)
    (htb : (tryBody g ad stream msgId fields now).2 = some e)
    (hp : parseIntPy (fget fields "attempt" "0") = some a)
    (hge : cfg.maxRetry ≤ a) :
    (∃ pre post,
      (process_message_dlq cfg g ad stream msgId fields now true).1 =
        pre ++ WAction.xadd cfg.dlqStream (dlqFields fields e now) :: post ∧
      WAction.scheduleAck stream msgId ∈ post ∧
      (∀ s m, WAction.scheduleAck s m ∉ pre) ∧
      fget (dlqFields fields e now) "final_error" "" = e ∧
      (∀ k d, k ≠ "final_error" → k ≠ "dlq_at" →
        fget (dlqFields fields e now) k d = fget fields k d) ∧
      (process_message_dlq cfg g ad stream msgId fields now true).2 = none) ∧
    (∃ pre post,
      (process_message_dlq cfg g ad stream msgId fields now false).1 =
        pre ++ WAction.xaddFailed cfg.dlqStream (dlqFields fields e now) :: post ∧
      WAction.scheduleAck stream msgId ∈ post ∧
      (∀ st f, WAction.xadd st f ∉
        (process_message_dlq cfg g ad stream msgId fields now false).1) ∧
      (process_message_dlq cfg g ad stream msgId fields now false).2 = none) := by
  constructor
  · have hshape := process_message_error_dlq cfg g ad stream msgId fields now e a true
      htb hp hge
    refine ⟨[WAction.incr "concurrency_current"] ++ (tryBody g ad stream msgId fields now).1 ++
        [WAction.incr "failed"],
      [WAction.incr "dlq", WAction.scheduleAck stream msgId, WAction.decr "concurrency_current"],
      ?_, ?_, ?_, ?_, ?_, ?_⟩
    · rw [hshape]; simp [move_to_dlq]
    · simp
    · intro s m hm
      simp only [List.mem_append, List.mem_cons, List.mem_singleton,
        List.not_mem_nil, or_false, false_or, reduceCtorEq] at hm
      obtain ⟨u, sv, hu⟩ := tryBody_error_shape g ad stream msgId fields now e htb _ hm
      simp at hu
    · unfold dlqFields
      rw [fget_fset_other _ _ _ _ _ (by decide), fget_fset_self]
    · intro k d hk1 hk2
      unfold dlqFields
      rw [fget_fset_other _ _ _ _ _ hk2, fget_fset_other _ _ _ _ _ hk1]
    · rw [hshape]
  · have hshape := process_message_error_dlq cfg g ad stream msgId fields now e a false
      htb hp hge
    refine ⟨[WAction.incr "concurrency_current"] ++ (tryBody g ad stream msgId fields now).1 ++
        [WAction.incr "failed"],
      [WAction.scheduleAck stream msgId, WAction.decr "concurrency_current"],
      ?_, ?_, ?_, ?_⟩
    · rw [hshape]; simp [move_to_dlq]
    · simp
    · intro st f hf
      rw [hshape] at hf
      simp only [move_to_dlq, Bool.false_eq_true, if_false, List.mem_append, List.mem_cons,
        List.mem_singleton, List.not_mem_nil, or_false, false_or, reduceCtorEq] at hf
      obtain ⟨u, sv, hu⟩ := tryBody_error_shape g ad stream msgId fields now e htb _ hf
      simp at hu
    · rw [hshape]

/-- C1 amended witness: the attempt-then-acknowledge shapes, for both a
succeeding and a failing DLQ append, at a concrete permanently failing
entry (`attempt = 3`, `maxRetry = 3`, adapter raises). -/
theorem C1_dead_letter_attempt_then_ack_witness :
    (∃ pre post,
      (process_message_dlq ⟨3, "stream:preprocess:dlq"⟩ true (AdapterOutcome.raises "boom")
        "jobs" "m4" [("hls", "http://x/a.m3u8"), ("attempt", "3")] 1000 true).1 =
        pre ++ WAction.xadd "stream:preprocess:dlq"
          (dlqFields [("hls", "http://x/a.m3u8"), ("attempt", "3")] "boom" 1000) :: post ∧
      WAction.scheduleAck "jobs" "m4" ∈ post ∧
      (∀ s m, WAction.scheduleAck s m ∉ pre) ∧
      fget (dlqFields [("hls", "http://x/a.m3u8"), ("attempt", "3")] "boom" 1000)
        "final_error" "" = "boom" ∧
      (∀ k d, k ≠ "final_error" → k ≠ "dlq_at" →
        fget (dlqFields [("hls", "http://x/a.m3u8"), ("attempt", "3")] "boom" 1000) k d =
        fget [("hls", "http://x/a.m3u8"), ("attempt", "3")] k d) ∧
      (process_message_dlq ⟨3, "stream:preprocess:dlq"⟩ true (AdapterOutcome.raises "boom")
        "jobs" "m4" [("hls", "http://x/a.m3u8"), ("attempt", "3")] 1000 true).2 = none) ∧
    (∃ pre post,
      (process_message_dlq ⟨3, "stream:preprocess:dlq"⟩ true (AdapterOutcome.raises "boom")
        "jobs" "m4" [("hls", "http://x/a.m3u8"), ("attempt", "3")] 1000 false).1 =
        pre ++ WAction.xaddFailed "stream:preprocess:dlq"
          (dlqFields [("hls", "http://x/a.m3u8"), ("attempt", "3")] "boom" 1000) :: post ∧
      WAction.scheduleAck "jobs" "m4" ∈ post ∧
      (∀ st f, WAction.xadd st f ∉
        (process_message_dlq ⟨3, "stream:preprocess:dlq"⟩ true (AdapterOutcome.raises "boom")
          "jobs" "m4" [("hls", "http://x/a.m3u8"), ("attempt", "3")] 1000 false).1) ∧
      (process_message_dlq ⟨3, "stream:preprocess:dlq"⟩ true (AdapterOutcome.raises "boom")
        "jobs" "m4" [("hls", "http://x/a.m3u8"), ("attempt", "3")] 1000 false).2 = none) :=
  C1_dead_letter_attempt_then_ack ⟨3, "stream:preprocess:dlq"⟩ true (AdapterOutcome.raises "boom")
    "jobs" "m4" [("hls", "http://x/a.m3u8"), ("attempt", "3")] 1000 "boom" 3
    (by decide) (by decide) (by decide)

/-- C3: (i) every requeue performed because processing raised carries
`attempt` exactly one greater than the entry it replaces; (ii) an entry
is written to the dead-letter stream only when its `attempt` is at
least `maxRetry`; (iii) with `maxRetry = 3` and an adapter that always
raises, an entry starting at `attempt = 0` yields exactly three
requeues carrying `attempt` 1, 2, 3, and the fourth delivery yields
exactly one dead-letter entry with `final_error` set followed by the
acknowledgment of the original. -/
theorem C3_attempt_monotonicity :
    (∀ (cfg : Config) (g : Bool) (ad : AdapterOutcome) (stream msgId : String)
        (fields : Fields) (now : Int) (e : String) (a : Int),
      (tryBody g ad stream msgId fields now).2 = some e →
      parseIntPy (fget fields "attempt" "0") = some a →
      a < cfg.maxRetry →
      WAction.xadd stream (requeueFields fields a e now) ∈
        (process_message cfg g ad stream msgId fields now).1 ∧
      fget (requeueFields fields a e now) "attempt" "" = toString (a + 1)) ∧
    (∀ (cfg : Config) (g : Bool) (ad : AdapterOutcome) (stream msgId : String)
        (fields : Fields) (now : Int) (f : Fields),
      stream ≠ cfg.dlqStream →
      WAction.xadd cfg.dlqStream f ∈ (process_message cfg g ad stream msgId fields now).1 →
      ∃ a, parseIntPy (fget fields "attempt" "0") = some a ∧ cfg.maxRetry ≤ a) ∧
    (process_message ⟨3, "stream:preprocess:dlq"⟩ true (AdapterOutcome.raises "boom")
        "jobs" "m1" [("hls", "http://x/a.m3u8"), ("attempt", "0")] 1000 =
      ([WAction.incr "concurrency_current", WAction.adapterCall "http://x/a.m3u8" 20,
        WAction.incr "failed",
        WAction.xadd "jobs" [("hls", "http://x/a.m3u8"), ("attempt", "1"),
          ("last_error", "boom"), ("retry_at", "1000")],
        WAction.incr "retried", WAction.decr "concurrency_current"], none) ∧
     process_message ⟨3, "stream:preprocess:dlq"⟩ true (AdapterOutcome.raises "boom")
        "jobs" "m2" [("hls", "http://x/a.m3u8"), ("attempt", "1"),
          ("last_error", "boom"), ("retry_at", "1000")] 1000 =
      ([WAction.incr "concurrency_current", WAction.adapterCall "http://x/a.m3u8" 20,
        WAction.incr "failed",
        WAction.xadd "jobs" [("hls", "http://x/a.m3u8"), ("attempt", "2"),
          ("last_error", "boom"), ("retry_at", "1000")],
        WAction.incr "retried", WAction.decr "concurrency_current"], none) ∧
     process_message ⟨3, "stream:preprocess:dlq"⟩ true (AdapterOutcome.raises "boom")
        "jobs" "m3" [("hls", "http://x/a.m3u8"), ("attempt", "2"),
          ("last_error", "boom"), ("retry_at", "1000")] 1000 =
      ([WAction.incr "concurrency_current", WAction.adapterCall "http://x/a.m3u8" 20,
        WAction.incr "failed",
        WAction.xadd "jobs" [("hls", "http://x/a.m3u8"), ("attempt", "3"),
          ("last_error", "boom"), ("retry_at", "1000")],
        WAction.incr "retried", WAction.decr "concurrency_current"], none) ∧
     process_message ⟨3, "stream:preprocess:dlq"⟩ true (AdapterOutcome.raises "boom")
        "jobs" "m4" [("hls", "http://x/a.m3u8"), ("attempt", "3"),
          ("last_error", "boom"), ("retry_at", "1000")] 1000 =
      ([WAction.incr "concurrency_current", WAction.adapterCall "http://x/a.m3u8" 20,
        WAction.incr "failed",
        WAction.xadd "stream:preprocess:dlq"
          [("hls", "http://x/a.m3u8"), ("attempt", "3"), ("last_error", "boom"),
           ("retry_at", "1000"), ("final_error", "boom"), ("dlq_at", "1000")],
        WAction.incr "dlq", WAction.scheduleAck "jobs" "m4",
        WAction.decr "concurrency_current"], none)) := by
  refine ⟨?_, ?_, by decide⟩
  · intro cfg g ad stream msgId fields now e a htb hp hlt
    have hshape := process_message_error_requeue cfg g ad stream msgId fields now e a htb hp hlt
    refine ⟨?_, requeueFields_attempt fields a e now⟩
    rw [hshape]
    simp [requeueActions]
  · intro cfg g ad stream msgId fields now f hne hm
    unfold process_message process_message_dlq at hm
    rcases he : tryBody g ad stream msgId fields now with ⟨acts, o⟩
    rw [he] at hm
    cases o with
    | none =>
      simp only [List.mem_append, List.mem_cons, List.not_mem_nil, or_false,
        false_or, reduceCtorEq] at hm
      have hx := tryBody_xadd_stream g ad stream msgId fields now cfg.dlqStream f
        (by rw [he]; exact hm)
      exact absurd hx.symm hne
    | some e =>
      rcases hpp : parseIntPy (fget fields "attempt" "0") with _ | a
      · simp only [hpp, List.mem_append, List.mem_cons, List.not_mem_nil, or_false,
          false_or, reduceCtorEq] at hm
        have hx := tryBody_xadd_stream g ad stream msgId fields now cfg.dlqStream f
          (by rw [he]; exact hm)
        exact absurd hx.symm hne
      · by_cases hlt : a < cfg.maxRetry
        · simp only [hpp, if_pos hlt, requeueActions, List.mem_append, List.mem_cons,
            List.not_mem_nil, or_false, false_or, reduceCtorEq, WAction.xadd.injEq] at hm
          rcases hm with hm | hm
          · have hx := tryBody_xadd_stream g ad stream msgId fields now cfg.dlqStream f
              (by rw [he]; exact hm)
            exact absurd hx.symm hne
          · exact absurd hm.1.symm hne
        · exact ⟨a, rfl, not_lt.mp hlt⟩

/-- C3 witness: part (i) at a concrete raising entry with
`attempt = "0"`, and part (ii) at the concrete fourth-round dead-letter
write. -/
theorem C3_attempt_monotonicity_witness :
    (WAction.xadd "jobs"
        (requeueFields [("hls", "http://x/a.m3u8"), ("attempt", "0")] 0 "boom" 1000) ∈
      (process_message ⟨3, "stream:preprocess:dlq"⟩ true (AdapterOutcome.raises "boom")
        "jobs" "m1" [("hls", "http://x/a.m3u8"), ("attempt", "0")] 1000).1 ∧
      fget (requeueFields [("hls", "http://x/a.m3u8"), ("attempt", "0")] 0 "boom" 1000)
        "attempt" "" = toString ((0 : Int) + 1)) ∧
    (∃ a, parseIntPy
        (fget [("hls", "http://x/a.m3u8"), ("attempt", "3")] "attempt" "0") = some a ∧
      (3 : Int) ≤ a) :=
  ⟨C3_attempt_monotonicity.1 ⟨3, "stream:preprocess:dlq"⟩ true (AdapterOutcome.raises "boom")
      "jobs" "m1" [("hls", "http://x/a.m3u8"), ("attempt", "0")] 1000 "boom" 0
      (by decide) (by decide) (by decide),
   C3_attempt_monotonicity.2.1 ⟨3, "stream:preprocess:dlq"⟩ true (AdapterOutcome.raises "boom")
      "jobs" "m4" [("hls", "http://x/a.m3u8"), ("attempt", "3")] 1000
      (dlqFields [("hls", "http://x/a.m3u8"), ("attempt", "3")] "boom" 1000)
      (by decide) (by decide)⟩

/-- C4: the claim that no exception propagates out of the per-entry
task fails on a field map whose `attempt` field is not numeric: the
`try` block's `int(fields.get("attempt", "0"))` raises, the handler
catches it, but the handler's own re-parse of `attempt` raises again
inside the `except` block and escapes the task — the entry is neither
requeued nor dead-lettered nor acknowledged. -/
theorem C4_handler_reparse_escapes :
    process_message ⟨3, "stream:preprocess:dlq"⟩ true (AdapterOutcome.raises "x")
        "jobs" "m1" [("hls", "http://x/a.m3u8"), ("attempt", "abc")] 1000 =
      ([WAction.incr "concurrency_current", WAction.incr "failed",
        WAction.decr "concurrency_current"],
       some "invalid literal for int() with base 10: attempt") := by decide

/-- C2 counterexample: with the resource guard reporting insufficient
memory on an entry with `attempt = "0"`, the worker requeues via the
common `_requeue_message`, so the (only) requeued copy carries
`attempt = "1"`, not the original `"0"` — the congestion requeue does
increment `attempt`. -/
theorem C2_congestion_cex :
    process_message ⟨3, "stream:preprocess:dlq"⟩ false
        (AdapterOutcome.ok ⟨"success", true, ""⟩) "jobs" "m1"
        [("cctvId", "c1"), ("hls", "http://x/a.m3u8"), ("attempt", "0")] 1000 =
      ([WAction.incr "concurrency_current",
        WAction.xadd "jobs"
          [("cctvId", "c1"), ("hls", "http://x/a.m3u8"), ("attempt", "1"),
           ("last_error", "GPU 메모리 부족"), ("retry_at", "1000")],
        WAction.incr "retried",
        WAction.decr "concurrency_current"], none) ∧
    fget [("cctvId", "c1"), ("hls", "http://x/a.m3u8"), ("attempt", "1"),
          ("last_error", "GPU 메모리 부족"), ("retry_at", "1000")] "attempt" "" = "1" ∧
    fget [("cctvId", "c1"), ("hls", "http://x/a.m3u8"), ("attempt", "0")] "attempt" "" = "0" ∧
    ("1" : String) ≠ "0" := by decide

/-- C2 amended: when the resource guard reports insufficient resources
(and the entry passes validation), the entry is requeued without the
adapter being invoked, the task neither acknowledges nor dead-letters,
but the requeued copy carries `attempt` one greater than the original
(the congestion requeue goes through the common `_requeue_message` and
does consume the retry budget). -/
theorem C2_congestion_requeue (cfg : Config) (ad : AdapterOutcome)
    (stream msgId : String) (fields : Fields) (now : Int) (sec a : Int)
    (hsec : parseIntPy (fget fields "sec" "20") = some sec)
    (hp : parseIntPy (fget fields "attempt" "0") = some a)
    (hhls : fget fields "hls" "" ≠ "") :
    process_message cfg false ad stream msgId fields now =
      ([WAction.incr "concurrency_current"] ++
        requeueActions stream fields a "GPU 메모리 부족" now ++
        [WAction.decr "concurrency_current"], none) ∧
    (∀ u s, WAction.adapterCall u s ∉ (process_message cfg false ad stream msgId fields now).1) ∧
    (∀ s m, WAction.scheduleAck s m ∉ (process_message cfg false ad stream msgId fields now).1) ∧
    fget (requeueFields fields a "GPU 메모리 부족" now) "attempt" "" = toString (a + 1) := by
  have hbody : process_message cfg false ad stream msgId fields now =
      ([WAction.incr "concurrency_current"] ++
        requeueActions stream fields a "GPU 메모리 부족" now ++
        [WAction.decr "concurrency_current"], none) := by
    unfold process_message process_message_dlq tryBody
    rw [hsec, hp]
    simp [hhls]
  refine ⟨hbody, ?_, ?_, requeueFields_attempt fields a "GPU 메모리 부족" now⟩
  · intro u s hm
    rw [hbody] at hm
    simp [requeueActions] at hm
  · intro s m hm
    rw [hbody] at hm
    simp [requeueActions] at hm

/-- C2 amended witness: the congestion requeue at a concrete entry with
`attempt = "0"`. -/
theorem C2_congestion_requeue_witness :
    process_message ⟨3, "stream:preprocess:dlq"⟩ false
        (AdapterOutcome.ok ⟨"success", true, ""⟩) "jobs" "m1"
        [("cctvId", "c1"), ("hls", "http://x/a.m3u8"), ("attempt", "0")] 1000 =
      ([WAction.incr "concurrency_current"] ++
        requeueActions "jobs" [("cctvId", "c1"), ("hls", "http://x/a.m3u8"), ("attempt", "0")]
          0 "GPU 메모리 부족" 1000 ++
        [WAction.decr "concurrency_current"], none) ∧
    (∀ u s, WAction.adapterCall u s ∉
      (process_message ⟨3, "stream:preprocess:dlq"⟩ false
        (AdapterOutcome.ok ⟨"success", true, ""⟩) "jobs" "m1"
        [("cctvId", "c1"), ("hls", "http://x/a.m3u8"), ("attempt", "0")] 1000).1) ∧
    (∀ s m, WAction.scheduleAck s m ∉
      (process_message ⟨3, "stream:preprocess:dlq"⟩ false
        (AdapterOutcome.ok ⟨"success", true, ""⟩) "jobs" "m1"
        [("cctvId", "c1"), ("hls", "http://x/a.m3u8"), ("attempt", "0")] 1000).1) ∧
    fget (requeueFields [("cctvId", "c1"), ("hls", "http://x/a.m3u8"), ("attempt", "0")]
      0 "GPU 메모리 부족" 1000) "attempt" "" = toString ((0 : Int) + 1) :=
  C2_congestion_requeue ⟨3, "stream:preprocess:dlq"⟩
    (AdapterOutcome.ok ⟨"success", true, ""⟩) "jobs" "m1"
    [("cctvId", "c1"), ("hls", "http://x/a.m3u8"), ("attempt", "0")] 1000 20 0
    (by decide) (by decide) (by decide)

/-- C5: over any interleaving of task starts and finishes (no runtime
concurrency update) from a fresh gate of size `k`, at most `k` tasks are
ever inside per-entry processing; when `k` are inside, no further task
is admitted; and from a full gate, finishing one task admits exactly one
more: any fresh task can then enter, after which the gate is full again
and every further start is refused. -/
theorem C5_bounded_concurrency (k : Nat) (evs : List GStep) (s : WorkerGate)
    (hno : noUpdate evs = true)
    (h : foldGate ⟨0, k, []⟩ evs = some s) :
    s.active.length ≤ k ∧
    (s.active.length = k → ∀ tid, gstep s (GStep.start tid) = none) ∧
    (s.active.length = k → ∀ tid, tid ∈ s.active.map Prod.fst →
      ∃ s2, gstep s (GStep.finish tid) = some s2 ∧
        ∀ tid2, tid2 ∉ s2.active.map Prod.fst →
          ∃ s3, gstep s2 (GStep.start tid2) = some s3 ∧
            s3.active.length = k ∧
            ∀ tid3, gstep s3 (GStep.start tid3) = none) := by
  have hinv : GateInv k s := by
    refine foldGate_inv k evs ⟨0, k, []⟩ s hno ?_ h
    exact ⟨rfl, rfl, by simp, by simp, by simp⟩
  refine ⟨hinv.2.2.2.1, fun hfull tid => start_blocked k s hinv hfull tid, ?_⟩
  intro hfull tid htid
  have hnd := hinv.2.2.2.2
  have hany : (s.active.any (fun p => p.1 = tid)) = true := by
    rcases List.mem_map.mp htid with ⟨q, hq, hq2⟩
    simp only [List.any_eq_true, decide_eq_true_eq]
    exact ⟨q, hq, hq2⟩
  have hstep2 : gstep s (GStep.finish tid) =
      some { s with active := s.active.filter (fun p => p.1 ≠ tid) } :=
    gstep_finish_eq s tid hany
  have hinv2 : GateInv k { s with active := s.active.filter (fun p => p.1 ≠ tid) } :=
    gstep_inv k s _ (GStep.finish tid) (by simp [noUpdate]) hinv hstep2
  have hlen2 : (s.active.filter (fun p => p.1 ≠ tid)).length + 1 = k := by
    rw [filter_ne_length s.active tid htid hnd]
    exact hfull
  refine ⟨_, hstep2, ?_⟩
  intro tid2 htid2
  have hany2 : ((s.active.filter (fun p => p.1 ≠ tid)).any (fun p => p.1 = tid2)) = false := by
    apply List.any_eq_false.mpr
    intro q hq
    simp only [decide_eq_true_eq]
    intro heq
    exact htid2 (heq ▸ List.mem_map_of_mem Prod.fst hq)
  have hcc2 : currentCount { s with active := s.active.filter (fun p => p.1 ≠ tid) } =
      (s.active.filter (fun p => p.1 ≠ tid)).length :=
    currentCount_of_all_gen _ (fun p hp => by
      rw [hinv2.2.2.1 p hp, hinv2.1])
  have hcap2 : ({ s with active := s.active.filter (fun p => p.1 ≠ tid) } : WorkerGate).capacity
      = k := hinv2.2.1
  have hlt2 : currentCount { s with active := s.active.filter (fun p => p.1 ≠ tid) } <
      ({ s with active := s.active.filter (fun p => p.1 ≠ tid) } : WorkerGate).capacity := by
    rw [hcc2, hcap2]
    omega
  have hstep3 : gstep { s with active := s.active.filter (fun p => p.1 ≠ tid) }
      (GStep.start tid2) =
      some { s with active := (tid2, s.gen) :: s.active.filter (fun p => p.1 ≠ tid) } :=
    gstep_start_eq { s with active := s.active.filter (fun p => p.1 ≠ tid) } tid2 hany2 hlt2
  refine ⟨_, hstep3, ?_, ?_⟩
  · show ((tid2, s.gen) :: s.active.filter (fun p => p.1 ≠ tid)).length = k
    simp only [List.length_cons]
    omega
  · intro tid3
    have hinv3 : GateInv k
        { s with active := (tid2, s.gen) :: s.active.filter (fun p => p.1 ≠ tid) } :=
      gstep_inv k _ _ (GStep.start tid2) (by simp [noUpdate]) hinv2 hstep3
    refine start_blocked k _ hinv3 ?_ tid3
    show ((tid2, s.gen) :: s.active.filter (fun p => p.1 ≠ tid)).length = k
    simp only [List.length_cons]
    omega

/-- C5 witness: after dispatching two tasks into a gate of size 2, two
tasks are active, within the bound. -/
theorem C5_bounded_concurrency_witness :
    (⟨0, 2, [(2, 0), (1, 0)]⟩ : WorkerGate).active.length ≤ 2 :=
  (C5_bounded_concurrency 2 [GStep.start 1, GStep.start 2] ⟨0, 2, [(2, 0), (1, 0)]⟩
    (by decide) (by decide)).1

/-- C8: the runtime concurrency-update endpoint rejects every integer
below 1 with HTTP status 400; every accepted value replaces the
semaphore with a fresh one of the requested size while leaving the
active task set untouched, and no permit of the new semaphore is held
by any in-flight task (the new bound applies only to
subsequently-dispatched tasks). -/
theorem C8_runtime_concurrency_update :
    (∀ (n : Int) (s : WorkerGate), n < 1 →
      update_concurrency_api n s = Except.error 400) ∧
    (∀ (n : Int) (s : WorkerGate), 1 ≤ n → n ≤ 10 →
      (∀ p ∈ s.active, p.2 ≤ s.gen) →
      update_concurrency_api n s = Except.ok ⟨s.gen + 1, n.toNat, s.active⟩ ∧
      currentCount (⟨s.gen + 1, n.toNat, s.active⟩ : WorkerGate) = 0) := by
  constructor
  · intro n s hn
    unfold update_concurrency_api
    simp [hn]
  · intro n s h1 h10 hold
    have hcond : ¬ (n < 1 ∨ n > 10) := by
      push_neg
      exact ⟨h1, h10⟩
    constructor
    · unfold update_concurrency_api worker_update_concurrency
      simp only [hcond, if_false, if_neg (not_lt.mpr h1)]
    · unfold currentCount
      have hfilter : (List.filter (fun p => p.2 = s.gen + 1) s.active) = [] := by
        apply List.filter_eq_nil_iff.mpr
        intro p hp
        have := hold p hp
        simp only [decide_eq_true_eq]
        omega
      simp [hfilter]

/-- C8 witness: value 0 is rejected with status 400; value 5 on a gate
with one in-flight task yields a fresh semaphore of size 5 with the
in-flight task untouched and holding no permit of the new semaphore. -/
theorem C8_runtime_concurrency_update_witness :
    update_concurrency_api 0 ⟨0, 2, []⟩ = Except.error 400 ∧
    (update_concurrency_api 5 ⟨0, 2, [(1, 0)]⟩ =
        Except.ok ⟨0 + 1, (5 : Int).toNat, [(1, 0)]⟩ ∧
      currentCount (⟨0 + 1, (5 : Int).toNat, [(1, 0)]⟩ : WorkerGate) = 0) :=
  ⟨C8_runtime_concurrency_update.1 0 ⟨0, 2, []⟩ (by decide),
   C8_runtime_concurrency_update.2 5 ⟨0, 2, [(1, 0)]⟩ (by decide) (by decide) (by decide)⟩

/-! ## Counter registry lemmas -/

theorem keysOf_map_update (cs : Counters) (name : String) (f : Int → Int) :
    keysOf (cs.map (fun p => if p.1 = name then (p.1, f p.2) else p)) = keysOf cs := by
  induction cs with
  | nil => rfl
  | cons p rest ih =>
    simp only [List.map_cons, keysOf] at *
    by_cases hp : p.1 = name
    · simp [hp, ih]
    · simp [hp, ih]

theorem keysOf_mupdate (cs : Counters) (name : String) (f : Int → Int) :
    keysOf (mupdate cs name f) = keysOf cs := by
  unfold mupdate
  split
  · exact keysOf_map_update cs name f
  · rfl

theorem keysOf_reset (cs : Counters) :
    keysOf (cs.map (fun p => if p.1 = "concurrency_current" then p else (p.1, 0))) =
      keysOf cs := by
  induction cs with
  | nil => rfl
  | cons p rest ih =>
    simp only [List.map_cons, keysOf] at *
    by_cases hp : p.1 = "concurrency_current"
    · simp [hp, ih]
    · simp [hp, ih]

/-- Every `Metrics` call leaves the set of counter names unchanged. -/
theorem mapply_keys (cs : Counters) (op : MOp) : keysOf (mapply cs op) = keysOf cs := by
  cases op with
  | inc name v => exact keysOf_mupdate cs name (fun x => x + v)
  | dec name v => exact keysOf_mupdate cs name (fun x => max 0 (x - v))
  | setTo name v => exact keysOf_mupdate cs name (fun _ => v)
  | reset => exact keysOf_reset cs

theorem mupdate_nonneg (cs : Counters) (name : String) (f : Int → Int)
    (hf : ∀ x : Int, 0 ≤ x → 0 ≤ f x) (h : ∀ p ∈ cs, 0 ≤ p.2) :
    ∀ p ∈ mupdate cs name f, 0 ≤ p.2 := by
  unfold mupdate
  split
  · intro p hp
    rcases List.mem_map.mp hp with ⟨q, hq, rfl⟩
    by_cases hq1 : q.1 = name
    · simpa [hq1] using hf q.2 (h q hq)
    · simpa [hq1] using h q hq
  · exact h

/-- An allowed `Metrics` call keeps all counter values non-negative. -/
theorem mapply_nonneg (cs : Counters) (op : MOp) (hop : opNonneg op = true)
    (h : ∀ p ∈ cs, 0 ≤ p.2) : ∀ p ∈ mapply cs op, 0 ≤ p.2 := by
  cases op with
  | inc name v =>
    have hv : (0 : Int) ≤ v := by simpa [opNonneg] using hop
    exact mupdate_nonneg cs name (fun x => x + v)
      (fun x hx => by show (0 : Int) ≤ x + v; omega) h
  | dec name v =>
    exact mupdate_nonneg cs name (fun x => max 0 (x - v)) (fun x hx => le_max_left 0 (x - v)) h
  | setTo name v =>
    have hv : (0 : Int) ≤ v := by simpa [opNonneg] using hop
    exact mupdate_nonneg cs name (fun _ => v) (fun x hx => hv) h
  | reset =>
    intro p hp
    rcases List.mem_map.mp hp with ⟨q, hq, rfl⟩
    by_cases hq1 : q.1 = "concurrency_current"
    · simpa [hq1] using h q hq
    · simp [hq1]

theorem foldl_mapply_inv (ops : List MOp) (cs : Counters)
    (hops : ops.all opNonneg = true) (h : ∀ p ∈ cs, 0 ≤ p.2) :
    keysOf (ops.foldl mapply cs) = keysOf cs ∧ ∀ p ∈ ops.foldl mapply cs, 0 ≤ p.2 := by
  induction ops generalizing cs with
  | nil => exact ⟨rfl, h⟩
  | cons op rest ih =>
    simp only [List.all_cons, Bool.and_eq_true] at hops
    have hrest := ih (mapply cs op) hops.2 (mapply_nonneg cs op hops.1 h)
    exact ⟨hrest.1.trans (mapply_keys cs op), hrest.2⟩

/-- C6 counterexample: an upstream-unreachable adapter outcome on an
entry with `attempt = "0"` is requeued through the common
`_requeue_message`, so the requeued copy carries `attempt = "1"` — the
HLS retry consumes the very attempt counter the general retry limit is
checked against, instead of a budget independent of it. -/
theorem C6_hls_retry_consumes_budget_cex :
    process_message ⟨3, "stream:preprocess:dlq"⟩ true
        (AdapterOutcome.ok ⟨"failed_hls_connection", false, "timeout"⟩) "jobs" "m1"
        [("hls", "http://x/a.m3u8"), ("attempt", "0")] 1000 =
      ([WAction.incr "concurrency_current",
        WAction.adapterCall "http://x/a.m3u8" 20,
        WAction.xadd "jobs"
          [("hls", "http://x/a.m3u8"), ("attempt", "1"),
           ("last_error", "HLS 연결 실패: timeout"), ("retry_at", "1000")],
        WAction.incr "retried",
        WAction.decr "concurrency_current"], none) ∧
    fget [("hls", "http://x/a.m3u8"), ("attempt", "1"),
          ("last_error", "HLS 연결 실패: timeout"), ("retry_at", "1000")] "attempt" "" = "1" ∧
    fget [("hls", "http://x/a.m3u8"), ("attempt", "0")] "attempt" "" = "0" ∧
    ("1" : String) ≠ "0" := by decide

/-- C6 amended: an adapter outcome reporting the upstream source as
unreachable is requeued — with `attempt` incremented, consuming the same
attempt budget the general retry limit reads — while `attempt < 3`, a
hardcoded limit equal to the default general retry limit; once
`attempt >= 3`, the outcome is demoted to a recorded completion: the
adapter's `failed_hls_connection` status increments `processed` and the
entry is acknowledged, not reprocessed. -/
theorem C6_hls_unreachable_retry (cfg : Config) (stream msgId : String)
    (fields : Fields) (now : Int) (sec a : Int) (r : AdapterReturn)
    (hsec : parseIntPy (fget fields "sec" "20") = some sec)
    (hp : parseIntPy (fget fields "attempt" "0") = some a)
    (hhls : fget fields "hls" "" ≠ "")
    (hacc : r.hlsAccessible = false) :
    (a < 3 →
      process_message cfg true (AdapterOutcome.ok r) stream msgId fields now =
        ([WAction.incr "concurrency_current",
          WAction.adapterCall (fget fields "hls" "") sec] ++
          requeueActions stream fields a ("HLS 연결 실패: " ++ r.hlsError) now ++
          [WAction.decr "concurrency_current"], none) ∧
      fget (requeueFields fields a ("HLS 연결 실패: " ++ r.hlsError) now) "attempt" ""
        = toString (a + 1)) ∧
    (3 ≤ a → r.status = "failed_hls_connection" →
      process_message cfg true (AdapterOutcome.ok r) stream msgId fields now =
        ([WAction.incr "concurrency_current",
          WAction.adapterCall (fget fields "hls" "") sec,
          WAction.incr "processed",
          WAction.scheduleAck stream msgId,
          WAction.decr "concurrency_current"], none)) := by
  constructor
  · intro hlt
    constructor
    · unfold process_message process_message_dlq tryBody
      rw [hsec, hp]
      simp [hhls, hacc, hlt]
    · exact requeueFields_attempt fields a _ now
  · intro hge hstatus
    unfold process_message process_message_dlq tryBody procActsOf
    rw [hsec, hp]
    simp [hhls, hacc, not_lt.mpr hge, hstatus]

/-- C6 amended witness: the HLS retry at `attempt = 0` and the demotion
to a recorded completion at `attempt = 3`. -/
theorem C6_hls_unreachable_retry_witness :
    (process_message ⟨3, "stream:preprocess:dlq"⟩ true
        (AdapterOutcome.ok ⟨"failed_hls_connection", false, "timeout"⟩) "jobs" "m1"
        [("hls", "http://x/a.m3u8"), ("attempt", "0")] 1000 =
      ([WAction.incr "concurrency_current",
        WAction.adapterCall (fget [("hls", "http://x/a.m3u8"), ("attempt", "0")] "hls" "") 20] ++
        requeueActions "jobs" [("hls", "http://x/a.m3u8"), ("attempt", "0")] 0
          ("HLS 연결 실패: " ++ "timeout") 1000 ++
        [WAction.decr "concurrency_current"], none) ∧
      fget (requeueFields [("hls", "http://x/a.m3u8"), ("attempt", "0")] 0
          ("HLS 연결 실패: " ++ "timeout") 1000) "attempt" "" = toString ((0 : Int) + 1)) ∧
    (process_message ⟨3, "stream:preprocess:dlq"⟩ true
        (AdapterOutcome.ok ⟨"failed_hls_connection", false, "timeout"⟩) "jobs" "m4"
        [("hls", "http://x/a.m3u8"), ("attempt", "3")] 1000 =
      ([WAction.incr "concurrency_current",
        WAction.adapterCall (fget [("hls", "http://x/a.m3u8"), ("attempt", "3")] "hls" "") 20,
        WAction.incr "processed",
        WAction.scheduleAck "jobs" "m4",
        WAction.decr "concurrency_current"], none)) :=
  ⟨(C6_hls_unreachable_retry ⟨3, "stream:preprocess:dlq"⟩ "jobs" "m1"
      [("hls", "http://x/a.m3u8"), ("attempt", "0")] 1000 20 0
      ⟨"failed_hls_connection", false, "timeout"⟩
      (by decide) (by decide) (by decide) rfl).1 (by decide),
   (C6_hls_unreachable_retry ⟨3, "stream:preprocess:dlq"⟩ "jobs" "m4"
      [("hls", "http://x/a.m3u8"), ("attempt", "3")] 1000 20 3
      ⟨"failed_hls_connection", false, "timeout"⟩
      (by decide) (by decide) (by decide) rfl).2 (by decide) rfl⟩

/-- C7 counterexample: with batching enabled and five identifiers
buffered for one partition, `_flush_acks` issues its single `XACK`
strictly between taking and releasing the exclusion lock — the
acknowledge call happens while the lock is held, not outside it. -/
theorem C7_ack_inside_lock_cex :
    flush_acks true (fun _ => true) [("jobs", ["1", "2", "3", "4", "5"])] =
      ([AckEv.acquire, AckEv.ackCall "jobs" ["1", "2", "3", "4", "5"] true, AckEv.release],
       [("jobs", [])]) := by decide

/-- C7 amended: `flush()` swaps out every non-empty per-partition
buffer for an empty one and issues exactly one acknowledge call per
non-empty partition covering all the swapped identifiers, but does so
while still holding the exclusion lock (every acknowledge event lies
between the acquire and the release); the buffers afterwards are empty
regardless of acknowledge failures (failed identifiers are not
re-buffered); five acknowledgments scheduled between two flush ticks
yield exactly one underlying acknowledge call covering all five. -/
theorem C7_flush_semantics (ackOk : String → Bool) (bufs : AckBufs) :
    (flush_acks true ackOk bufs).1 =
      AckEv.acquire ::
        ((bufs.filter (fun p => ¬ p.2.isEmpty)).map
          (fun p => AckEv.ackCall p.1 p.2 (ackOk p.1))) ++ [AckEv.release] ∧
    (∀ p ∈ bufs, ¬ p.2.isEmpty →
      AckEv.ackCall p.1 p.2 (ackOk p.1) ∈ (flush_acks true ackOk bufs).1) ∧
    (∀ q ∈ (flush_acks true ackOk bufs).2, q.2 = []) ∧
    (∀ g : String → Bool, (flush_acks true g bufs).2 = (flush_acks true ackOk bufs).2) ∧
    (flush_acks true ackOk
        (schedule_ack true ackOk
          (schedule_ack true ackOk
            (schedule_ack true ackOk
              (schedule_ack true ackOk
                (schedule_ack true ackOk [] "jobs" "1").2 "jobs" "2").2 "jobs" "3").2
            "jobs" "4").2 "jobs" "5").2).1 =
      [AckEv.acquire, AckEv.ackCall "jobs" ["1", "2", "3", "4", "5"] (ackOk "jobs"),
       AckEv.release] := by
  refine ⟨rfl, ?_, ?_, fun g => rfl, rfl⟩
  · intro p hp hne
    have h1 : p ∈ bufs.filter (fun q => ¬ q.2.isEmpty) := by
      refine List.mem_filter.mpr ⟨hp, ?_⟩
      simpa using hne
    have h2 : AckEv.ackCall p.1 p.2 (ackOk p.1) ∈
        (bufs.filter (fun q => ¬ q.2.isEmpty)).map
          (fun q => AckEv.ackCall q.1 q.2 (ackOk q.1)) :=
      List.mem_map_of_mem _ h1
    show AckEv.ackCall p.1 p.2 (ackOk p.1) ∈
      AckEv.acquire :: ((bufs.filter (fun q => ¬ q.2.isEmpty)).map
        (fun q => AckEv.ackCall q.1 q.2 (ackOk q.1))) ++ [AckEv.release]
    exact List.mem_cons_of_mem _ (List.mem_append_left _ h2)
  · intro q hq
    have hq2 : q ∈ bufs.map (fun p => (p.1, ([] : List String))) := hq
    rcases List.mem_map.mp hq2 with ⟨p, _, rfl⟩
    rfl

/-- C7 amended witness: the single acknowledge call covering a concrete
non-empty buffer. -/
theorem C7_flush_semantics_witness :
    AckEv.ackCall "jobs" ["1", "2"] true ∈
      (flush_acks true (fun _ => true) [("jobs", ["1", "2"])]).1 :=
  (C7_flush_semantics (fun _ => true) [("jobs", ["1", "2"])]).2.1
    ("jobs", ["1", "2"]) (by decide) (by decide)

/-- C9: starting from the registry built by `Metrics.__init__`, every
sequence of `increment` (non-negative amount), `decrement` (clamped at
zero), `set` (non-negative value) and `reset` calls preserves the exact
set of counter names and keeps every counter value non-negative. -/
theorem C9_counter_registry (ops : List MOp) (hops : ops.all opNonneg = true) :
    keysOf (ops.foldl mapply initCounters) = keysOf initCounters ∧
    ∀ p ∈ ops.foldl mapply initCounters, 0 ≤ p.2 :=
  foldl_mapply_inv ops initCounters hops (by decide)

/-- C9 witness: a concrete mixed sequence of allowed calls. -/
theorem C9_counter_registry_witness :
    keysOf ([MOp.inc "processed" 1, MOp.dec "failed" 5, MOp.setTo "pending" 2,
        MOp.reset].foldl mapply initCounters) = keysOf initCounters ∧
    ∀ p ∈ [MOp.inc "processed" 1, MOp.dec "failed" 5, MOp.setTo "pending" 2,
        MOp.reset].foldl mapply initCounters, 0 ≤ p.2 :=
  C9_counter_registry
    [MOp.inc "processed" 1, MOp.dec "failed" 5, MOp.setTo "pending" 2, MOp.reset]
    (by decide)

/-- C10: for a counter name outside the six fixed ones, `increment`,
`decrement` and `set` are silent no-ops: on any registry state carrying
exactly the six fixed names they return the state unchanged. -/
theorem C10_unknown_counter_noop (name : String)
    (hname : name ∉ keysOf initCounters) (cs : Counters)
    (hkeys : keysOf cs = keysOf initCounters) (v : Int) :
    mapply cs (MOp.inc name v) = cs ∧ mapply cs (MOp.dec name v) = cs ∧
    mapply cs (MOp.setTo name v) = cs := by
  have hmem : name ∉ keysOf cs := by rw [hkeys]; exact hname
  have hany : (cs.any (fun p => p.1 = name)) = false := by
    apply List.any_eq_false.mpr
    intro p hp
    simp only [decide_eq_true_eq]
    intro heq
    exact hmem (heq ▸ List.mem_map_of_mem Prod.fst hp)
  refine ⟨?_, ?_, ?_⟩
  · show mupdate cs name (fun x => x + v) = cs
    unfold mupdate
    simp [hany]
  · show mupdate cs name (fun x => max 0 (x - v)) = cs
    unfold mupdate
    simp [hany]
  · show mupdate cs name (fun _ => v) = cs
    unfold mupdate
    simp [hany]

/-- C10 witness: the three operations at the unknown name "foo" leave the
initial registry unchanged. -/
theorem C10_unknown_counter_noop_witness :
    mapply initCounters (MOp.inc "foo" 7) = initCounters ∧
    mapply initCounters (MOp.dec "foo" 7) = initCounters ∧
    mapply initCounters (MOp.setTo "foo" 7) = initCounters :=
  C10_unknown_counter_noop "foo" (by decide) initCounters rfl 7
